import Mathlib

/-!
Verification of the download-orchestration core of the grok-video-downloader-bot
repository (`src/bot.py`, the authoritative current version; `src/main.py` is an
earlier revision of the same handlers).  Sessions live in `context.bot_data`
keyed by a uuid request id; sizes are measured in floating-point megabytes
obtained by dividing a byte count by `1024 * 1024` — an exact binary-power
division, modelled here with exact rationals.
-/

/-- File size in MB, from `os.path.getsize(f) / (1024 * 1024)` (bot.py lines 659,
747, 870, 1033).  Division by `2^20` is exact in binary floating point for any
realistic byte count, so the rational model is faithful. -/
def mb (sizeBytes : ℕ) : ℚ := (sizeBytes : ℚ) / (1024 * 1024)

/-- Outcome of the video size check, bot.py lines 870-901. -/
inductive VideoSizeOutcome where
  | deliver
  | fallbackPrompt
  deriving DecidableEq, Repr

/-- Outcome of the image size check, bot.py lines 747-754. -/
inductive ImageSizeOutcome where
  | deliver
  | tooLargeNotice
  deriving DecidableEq, Repr

/-- bot.py line 871: `if file_size <= 50:` send the video inline, else present
the Direct Download Link / Split into Parts / Cancel prompt. -/
def videoSizeDecision (sizeBytes : ℕ) : VideoSizeOutcome :=
  if mb sizeBytes ≤ 50 then .deliver else .fallbackPrompt

/-- bot.py line 748: `if file_size <= 10:` send the photo inline, else reply
with a too-large notice and send no file. -/
def imageSizeDecision (sizeBytes : ℕ) : ImageSizeOutcome :=
  if mb sizeBytes ≤ 10 then .deliver else .tooLargeNotice

/-- bot.py line 1034: `num_parts = math.ceil(file_size / 50)` where
`file_size` is the size in MB. -/
def numParts (sizeBytes : ℕ) : ℕ :=
  (Int.ceil (mb sizeBytes / 50)).toNat

/-- bot.py line 1035: `part_duration = duration / num_parts`. -/
def partDuration (duration : ℚ) (sizeBytes : ℕ) : ℚ :=
  duration / (numParts sizeBytes : ℚ)

/-- Start time of chunk `i`, bot.py line 1041: `ss=i * part_duration`. -/
def chunkStart (duration : ℚ) (sizeBytes : ℕ) (i : ℕ) : ℚ :=
  (i : ℚ) * partDuration duration sizeBytes

/-- Caption of the `i`-th chunk (0-based), bot.py line 1047, which renders
Part i+1 of num_parts. -/
def chunkCaption (i n : ℕ) : String :=
  "Part " ++ toString (i + 1) ++ " of " ++ toString n

/-- The split plan of bot.py lines 1037-1049: for `i in range(num_parts)`,
extract the segment starting at `i * part_duration` of length `part_duration`
and deliver it with its part caption, in increasing order of `i`. -/
def splitChunks (duration : ℚ) (sizeBytes : ℕ) : List (ℚ × ℚ × String) :=
  (List.range (numParts sizeBytes)).map
    (fun i => (chunkStart duration sizeBytes i,
               partDuration duration sizeBytes,
               chunkCaption i (numParts sizeBytes)))

lemma mb_le_iff (sizeBytes bound : ℕ) :
    mb sizeBytes ≤ (bound : ℚ) ↔ sizeBytes ≤ bound * (1024 * 1024) := by
  unfold mb
  rw [div_le_iff₀ (by norm_num : (0:ℚ) < 1024 * 1024)]
  constructor
  · intro h
    exact_mod_cast h
  · intro h
    exact_mod_cast h

lemma numParts_eq_ceil (sizeBytes : ℕ) :
    numParts sizeBytes = (Int.ceil ((sizeBytes : ℚ) / (50 * 1024 * 1024))).toNat := by
  unfold numParts mb
  norm_num [div_div]

lemma two_le_numParts {sizeBytes : ℕ} (h : 50 * 1024 * 1024 < sizeBytes) :
    2 ≤ numParts sizeBytes := by
  unfold numParts
  have h1 : (1 : ℚ) < mb sizeBytes / 50 := by
    unfold mb
    rw [div_div, lt_div_iff₀ (by norm_num : (0:ℚ) < 1024 * 1024 * 50)]
    have : ((50 * 1024 * 1024 : ℕ) : ℚ) < (sizeBytes : ℚ) := by exact_mod_cast h
    push_cast at this ⊢
    linarith
  have h2 : (1 : ℤ) < Int.ceil (mb sizeBytes / 50) := by
    rw [Int.lt_ceil]
    exact_mod_cast h1
  omega

/-- C4: the video size check delivers inline at exactly 50 MB and takes the
fallback prompt (DirectLink/Split) strictly above it; the image size check
delivers inline at exactly 10 MB and yields the too-large notice strictly
above it (bot.py lines 870-901 and 747-754). -/
theorem c4_size_policy_boundaries :
    videoSizeDecision (50 * 1024 * 1024) = .deliver
    ∧ (∀ b : ℕ, 50 * 1024 * 1024 < b → videoSizeDecision b = .fallbackPrompt)
    ∧ imageSizeDecision (10 * 1024 * 1024) = .deliver
    ∧ (∀ b : ℕ, 10 * 1024 * 1024 < b → imageSizeDecision b = .tooLargeNotice) := by
  refine ⟨?_, ?_, ?_, ?_⟩
  · unfold videoSizeDecision
    rw [if_pos]
    exact (mb_le_iff _ 50).mpr (by norm_num)
  · intro b hb
    unfold videoSizeDecision
    rw [if_neg]
    intro hle
    have := (mb_le_iff b 50).mp hle
    omega
  · unfold imageSizeDecision
    rw [if_pos]
    exact (mb_le_iff _ 10).mpr (by norm_num)
  · intro b hb
    unfold imageSizeDecision
    rw [if_neg]
    intro hle
    have := (mb_le_iff b 10).mp hle
    omega

theorem c4_size_policy_boundaries_witness :
    videoSizeDecision (50 * 1024 * 1024 + 1) = .fallbackPrompt
    ∧ imageSizeDecision (10 * 1024 * 1024 + 1) = .tooLargeNotice :=
  ⟨c4_size_policy_boundaries.2.1 _ (by norm_num),
   c4_size_policy_boundaries.2.2.2 _ (by norm_num)⟩

/-- C5: for an oversized artifact the split loop produces exactly
`numParts = ceil(sizeBytes / (50 MB))` chunks (3 for a 150 MB artifact), whose
time ranges all have the equal length `duration / numParts`, start at 0, are
contiguous (each chunk starts where the previous one ends, so no gap and no
overlap), end exactly at the full source duration, and are delivered in
increasing part order carrying the caption "Part i of numParts"
(bot.py lines 1031-1049). -/
theorem c5_splitter_plan (d : ℚ) (b : ℕ) (hb : 50 * 1024 * 1024 < b) :
    numParts (150 * 1024 * 1024) = 3
    ∧ numParts b = (Int.ceil ((b : ℚ) / (50 * 1024 * 1024))).toNat
    ∧ (splitChunks d b).length = numParts b
    ∧ splitChunks d b = (List.range (numParts b)).map
        (fun i => (chunkStart d b i, partDuration d b, chunkCaption i (numParts b)))
    ∧ chunkStart d b 0 = 0
    ∧ (∀ i : ℕ, chunkStart d b (i + 1) = chunkStart d b i + partDuration d b)
    ∧ chunkStart d b (numParts b) = d := by
  have hn2 := two_le_numParts hb
  have hn0 : ((numParts b : ℕ) : ℚ) ≠ 0 := by
    have : (0 : ℕ) < numParts b := by omega
    exact_mod_cast this.ne'
  refine ⟨?_, ?_, ?_, rfl, ?_, ?_, ?_⟩
  · have h150 : mb (150 * 1024 * 1024) / 50 = 3 := by
      unfold mb
      norm_num
    unfold numParts
    rw [h150]
    norm_num
    rfl
  · rw [numParts_eq_ceil]
  · unfold splitChunks
    rw [List.length_map, List.length_range]
  · unfold chunkStart
    push_cast
    ring
  · intro i
    unfold chunkStart partDuration
    push_cast
    ring
  · unfold chunkStart partDuration
    field_simp

theorem c5_splitter_plan_witness :
    numParts (150 * 1024 * 1024) = 3
    ∧ chunkStart 60 (150 * 1024 * 1024) (numParts (150 * 1024 * 1024)) = 60 :=
  ⟨(c5_splitter_plan 60 (150 * 1024 * 1024) (by norm_num)).1,
   (c5_splitter_plan 60 (150 * 1024 * 1024) (by norm_num)).2.2.2.2.2.2⟩

/-- C10: whenever the splitter runs on an artifact strictly over the 50 MB
limit, `num_parts` is at least 2 (hence nonzero, so
`part_duration = duration / num_parts` never divides by zero) and every segment
start `i * part_duration` with `i < num_parts` stays within the source duration
(bot.py lines 1031-1044, reachable only from the >50 MB branch at 877-887). -/
theorem c10_split_division_safe (d : ℚ) (b : ℕ)
    (hb : 50 * 1024 * 1024 < b) (hd : 0 ≤ d) :
    2 ≤ numParts b
    ∧ ((numParts b : ℕ) : ℚ) ≠ 0
    ∧ ∀ i : ℕ, i < numParts b → chunkStart d b i ≤ d := by
  have hn2 := two_le_numParts hb
  have hn0 : ((numParts b : ℕ) : ℚ) ≠ 0 := by
    have : (0 : ℕ) < numParts b := by omega
    exact_mod_cast this.ne'
  refine ⟨hn2, hn0, ?_⟩
  intro i hi
  unfold chunkStart partDuration
  have hpd : 0 ≤ d / ((numParts b : ℕ) : ℚ) := by
    apply div_nonneg hd
    have : (0 : ℕ) < numParts b := by omega
    exact_mod_cast this.le
  have hin : ((i : ℕ) : ℚ) ≤ ((numParts b : ℕ) : ℚ) := by
    exact_mod_cast hi.le
  calc (i : ℚ) * (d / ((numParts b : ℕ) : ℚ))
      ≤ ((numParts b : ℕ) : ℚ) * (d / ((numParts b : ℕ) : ℚ)) :=
        mul_le_mul_of_nonneg_right hin hpd
    _ = d := by field_simp

theorem c10_split_division_safe_witness :
    2 ≤ numParts (150 * 1024 * 1024)
    ∧ ∀ i : ℕ, i < numParts (150 * 1024 * 1024) →
        chunkStart 60 (150 * 1024 * 1024) i ≤ 60 :=
  ⟨(c10_split_division_safe 60 (150 * 1024 * 1024) (by norm_num) (by norm_num)).1,
   (c10_split_division_safe 60 (150 * 1024 * 1024) (by norm_num) (by norm_num)).2.2⟩

/-- Number of `interactions` rows of this user inside the rolling window,
bot.py lines 316-321: `SELECT COUNT(*) FROM interactions WHERE user_id = %s AND
timestamp > %s` with `one_hour_ago = now - timedelta(hours=1)`.  Over real
clock time `ts > now - 3600` is `now < ts + 3600`, which is the form used here
so that natural-number timestamps need no truncated subtraction. -/
def recentCount (interactions : List ℕ) (now : ℕ) : ℕ :=
  (interactions.filter (fun ts => decide (now < ts + 3600))).length

/-- bot.py line 322: the attempt is admitted unless `recent_downloads >= 10`. -/
def rateAllows (interactions : List ℕ) (now : ℕ) : Bool :=
  decide (recentCount interactions now < 10)

/-- One admission attempt: on rejection the handler returns before any further
processing and records nothing (bot.py lines 322-328); on admission the URL is
processed and one `interactions` row is inserted (bot.py lines 353-360). -/
def rateStep (interactions : List ℕ) (now : ℕ) : Bool × List ℕ :=
  if rateAllows interactions now then (true, interactions ++ [now])
  else (false, interactions)

/-- The `interactions` timestamps after the first `k` attempts of a user whose
`k`-th attempt happens at time `t k`, starting from a cold (empty) state. -/
def rateStoreAfter (t : ℕ → ℕ) : ℕ → List ℕ
  | 0 => []
  | k + 1 => (rateStep (rateStoreAfter t k) (t k)).2

/-- Whether the `k`-th attempt (0-based) is admitted. -/
def rateResult (t : ℕ → ℕ) (k : ℕ) : Bool :=
  (rateStep (rateStoreAfter t k) (t k)).1

lemma recentCount_all (l : List ℕ) (now : ℕ) (h : ∀ x ∈ l, now < x + 3600) :
    recentCount l now = l.length := by
  unfold recentCount
  have hf : l.filter (fun ts => decide (now < ts + 3600)) = l :=
    List.filter_eq_self.mpr (fun a ha => by simpa using h a ha)
  rw [hf]

lemma rate_window_all (t : ℕ → ℕ) (hmono : Monotone t)
    (hwin : t 10 < t 0 + 3600) (k : ℕ) (hk : k ≤ 10) :
    ∀ x ∈ (List.range k).map t, t k < x + 3600 := by
  intro x hx
  rw [List.mem_map] at hx
  obtain ⟨i, hi, rfl⟩ := hx
  rw [List.mem_range] at hi
  have h1 : t k ≤ t 10 := hmono hk
  have h2 : t 0 ≤ t i := hmono (Nat.zero_le i)
  omega

lemma rateStoreAfter_eq (t : ℕ → ℕ) (hmono : Monotone t)
    (hwin : t 10 < t 0 + 3600) :
    ∀ k, k ≤ 10 → rateStoreAfter t k = (List.range k).map t := by
  intro k
  induction k with
  | zero => intro _; rfl
  | succ k ih =>
    intro hk
    have hstore := ih (by omega)
    have hadm : rateAllows ((List.range k).map t) (t k) = true := by
      unfold rateAllows
      rw [recentCount_all _ _ (rate_window_all t hmono hwin k (by omega))]
      simp only [List.length_map, List.length_range, decide_eq_true_eq]
      omega
    show (rateStep (rateStoreAfter t k) (t k)).2 = _
    rw [hstore]
    unfold rateStep
    rw [hadm]
    simp [List.range_succ]

/-- C2: starting from a cold state, with all eleven attempts of one identity
falling inside one rolling 1-hour window, each of the first 10 attempts is
admitted, the 11th is rejected, and the rejection performs no download
processing: it leaves the `interactions` store unchanged
(bot.py lines 312-333). -/
theorem c2_rate_limiter (t : ℕ → ℕ) (hmono : Monotone t)
    (hwin : t 10 < t 0 + 3600) :
    (∀ k, k < 10 → rateResult t k = true)
    ∧ rateResult t 10 = false
    ∧ rateStoreAfter t 11 = rateStoreAfter t 10 := by
  have hs := rateStoreAfter_eq t hmono hwin
  have hcount : ∀ k, k ≤ 10 →
      recentCount ((List.range k).map t) (t k) = k := by
    intro k hk
    rw [recentCount_all _ _ (rate_window_all t hmono hwin k hk)]
    simp
  have hreject : rateAllows (rateStoreAfter t 10) (t 10) = false := by
    rw [hs 10 le_rfl]
    unfold rateAllows
    rw [hcount 10 le_rfl]
    simp
  refine ⟨?_, ?_, ?_⟩
  · intro k hk
    unfold rateResult rateStep
    have hadm : rateAllows (rateStoreAfter t k) (t k) = true := by
      rw [hs k (by omega)]
      unfold rateAllows
      rw [hcount k (by omega)]
      simp [hk]
    rw [hadm]
    simp
  · unfold rateResult rateStep
    rw [hreject]
    simp
  · show (rateStep (rateStoreAfter t 10) (t 10)).2 = _
    unfold rateStep
    rw [hreject]
    simp

theorem c2_rate_limiter_witness :
    rateResult (fun _ => 0) 9 = true ∧ rateResult (fun _ => 0) 10 = false :=
  ⟨(c2_rate_limiter (fun _ => 0) monotone_const (by norm_num)).1 9 (by norm_num),
   (c2_rate_limiter (fun _ => 0) monotone_const (by norm_num)).2.1⟩

/-- One raw yt-dlp format dict, with the keys the keyboard construction reads
(bot.py lines 565-586).  Missing keys are `none`. -/
structure RawFormat where
  vcodec : Option String
  resolution : Option String
  url : Option String
  format_id : Option String
  deriving DecidableEq, Repr

/-- Python truthiness of a string-or-None field. -/
def truthy : Option String → Bool
  | none => false
  | some s => !s.isEmpty

/-- bot.py lines 565-568: keep formats with a playable video track, a
resolution and a retrievable url.  `f.get("vcodec") != "none"` is true when
the key is absent, hence the `≠ some "none"` test. -/
def videoFormats (formats : List RawFormat) : List RawFormat :=
  formats.filter (fun f =>
    decide (f.vcodec ≠ some "none") && truthy f.resolution && truthy f.url)

/-- Button label, bot.py line 580: `f.get("resolution", "Unknown")`. -/
def formatLabel (f : RawFormat) : String := f.resolution.getD "Unknown"

/-- bot.py line 581: `f.get("format_id", str(i))` for the `i`-th entry. -/
def formatIdAt (i : ℕ) (f : RawFormat) : String := f.format_id.getD (toString i)

/-- bot.py line 582: the callback selector
`f"quality|{request_id}|{format_id}|video"`. -/
def selectorData (rid : String) (i : ℕ) (f : RawFormat) : String :=
  "quality|" ++ rid ++ "|" ++ formatIdAt i f ++ "|video"

/-- The quality-keyboard loop of bot.py lines 578-586: enumerate the filtered
formats, skip an entry whose UTF-8 encoded selector exceeds 64 bytes, and
append a button labelled with the resolution of the entry.  No deduplication of
labels is performed anywhere in the loop. -/
def buildKeyboard (rid : String) : ℕ → List RawFormat → List String
  | _, [] => []
  | i, f :: fs =>
    if (selectorData rid i f).utf8ByteSize > 64 then buildKeyboard rid (i + 1) fs
    else formatLabel f :: buildKeyboard rid (i + 1) fs

/-- The labels of the rendition keyboard presented for a raw format listing. -/
def keyboardLabels (rid : String) (formats : List RawFormat) : List String :=
  buildKeyboard rid 0 (videoFormats formats)

/-- A raw listing with two entries rendering the identical label "1280x720". -/
def dupFormats : List RawFormat :=
  [ { vcodec := some "avc1", resolution := some "1280x720",
      url := some "https://v1", format_id := some "22" },
    { vcodec := some "vp9", resolution := some "1280x720",
      url := some "https://v2", format_id := some "247" } ]

lemma selectorData_ofSome (rid : String) (i j : ℕ) (f : RawFormat)
    (h : f.format_id.isSome) : selectorData rid i f = selectorData rid j f := by
  unfold selectorData formatIdAt
  obtain ⟨v, hv⟩ := Option.isSome_iff_exists.mp h
  rw [hv]
  rfl

lemma buildKeyboard_count (rid l : String) :
    ∀ (i : ℕ) (fs : List RawFormat), (∀ f ∈ fs, f.format_id.isSome) →
      (buildKeyboard rid i fs).count l =
        (fs.filter (fun f => decide ((selectorData rid 0 f).utf8ByteSize ≤ 64)
                    && decide (formatLabel f = l))).length := by
  intro i fs
  induction fs generalizing i with
  | nil => intro _; rfl
  | cons f fs ih =>
    intro h
    have hf : f.format_id.isSome := h f (List.mem_cons_self f fs)
    have hrest : ∀ g ∈ fs, g.format_id.isSome :=
      fun g hg => h g (List.mem_cons_of_mem f hg)
    have hsel : selectorData rid i f = selectorData rid 0 f :=
      selectorData_ofSome rid i 0 f hf
    unfold buildKeyboard
    by_cases hc : (selectorData rid i f).utf8ByteSize > 64
    · rw [if_pos hc]
      have hko : ¬ ((selectorData rid 0 f).utf8ByteSize ≤ 64) := by
        rw [← hsel]; omega
      rw [ih (i + 1) hrest]
      simp [List.filter_cons, hko]
    · rw [if_neg hc]
      have hle : (selectorData rid 0 f).utf8ByteSize ≤ 64 := by
        rw [← hsel]; omega
      rw [List.count_cons, ih (i + 1) hrest]
      by_cases hl : formatLabel f = l
      · simp [List.filter_cons, hle, hl]
      · simp [List.filter_cons, hle, hl, Ne.symm hl]

/-- C3 counterexample: a listing with two raw entries both rendering the label
"1280x720" produces a keyboard carrying that label twice, not "exactly one
entry with that label" — the loop of bot.py lines 578-586 performs no
deduplication by display label. -/
theorem c3_counterexample_dup_labels :
    (keyboardLabels "r" dupFormats).count "1280x720" = 2 := by decide

/-- C3 amended: the presented rendition set keeps every filtered raw entry
whose encoded selector fits in 64 bytes, in backend order, including entries
with duplicate display labels: the multiplicity of each label in the keyboard
equals its multiplicity among the filtered, cap-passing raw entries (no
deduplication occurs). -/
theorem c3_no_label_dedup (rid l : String) (fs : List RawFormat)
    (hids : ∀ f ∈ videoFormats fs, f.format_id.isSome) :
    (keyboardLabels rid fs).count l =
      ((videoFormats fs).filter
        (fun f => decide ((selectorData rid 0 f).utf8ByteSize ≤ 64)
                  && decide (formatLabel f = l))).length := by
  unfold keyboardLabels
  exact buildKeyboard_count rid l 0 (videoFormats fs) hids

theorem c3_no_label_dedup_witness :
    (keyboardLabels "r" dupFormats).count "640x360" =
      ((videoFormats dupFormats).filter
        (fun f => decide ((selectorData "r" 0 f).utf8ByteSize ≤ 64)
                  && decide (formatLabel f = "640x360"))).length :=
  c3_no_label_dedup "r" "640x360" dupFormats (by decide)

/-- One `user_history` row, bot.py schema lines 55-63. -/
structure HistRow where
  userId : ℕ
  url : String
  selectedQuality : String
  mediaType : String
  platform : String
  ts : ℕ
  deriving DecidableEq, Repr

/-- Rows of identity `u` with timestamp strictly above `t`: the subquery rank
used by the retention DELETE. -/
def newerCount (rows : List HistRow) (u : ℕ) (t : ℕ) : ℕ :=
  (rows.filter (fun r => decide (r.userId = u) && decide (t < r.ts))).length

/-- The retention statement of bot.py lines 814-817:
`DELETE FROM user_history WHERE user_id = %s AND id NOT IN (SELECT id FROM
user_history WHERE user_id = %s ORDER BY timestamp DESC LIMIT 100)` — a row of
`u` survives exactly when fewer than 100 rows of `u` have a strictly greater
timestamp (timestamps are strictly increasing across handler invocations, so
the `LIMIT 100` cut is by timestamp rank). -/
def pruneUser (rows : List HistRow) (u : ℕ) : List HistRow :=
  rows.filter (fun r =>
    decide (r.userId ≠ u) || decide (newerCount rows u r.ts < 100))

/-- `SELECT COUNT(*) FROM user_history WHERE user_id = %s`. -/
def countHistory (rows : List HistRow) (u : ℕ) : ℕ :=
  (rows.filter (fun r => decide (r.userId = u))).length

/-- The INSERT-then-retention-DELETE pair executed as one logical append
(bot.py lines 810-818, likewise 674-681, 763-770, 1070-1076). -/
def insertPruneHistory (rows : List HistRow) (r : HistRow) : List HistRow :=
  pruneUser (rows ++ [r]) r.userId

lemma length_filter_lt {α : Type} (p q : α → Bool) (l : List α)
    (hpq : ∀ a, p a = true → q a = true) (x : α) (hx : x ∈ l)
    (hqx : q x = true) (hpx : p x = false) :
    (l.filter p).length < (l.filter q).length := by
  induction l with
  | nil => cases hx
  | cons a l ih =>
    have hmono : (l.filter p).length ≤ (l.filter q).length :=
      List.Sublist.length_le (List.monotone_filter_right l hpq)
    rcases List.mem_cons.mp hx with rfl | hx'
    · simp only [List.filter_cons, hpx, hqx]
      simp
      omega
    · have hlt := ih hx'
      cases hpa : p a
      · cases hqa : q a
        · simp [List.filter_cons, hpa, hqa]
          omega
        · simp [List.filter_cons, hpa, hqa]
          omega
      · have hqa : q a = true := hpq a hpa
        simp [List.filter_cons, hpa, hqa]
        omega

lemma newerCount_append_mem (rows : List HistRow) (r x : HistRow)
    (hu : x.userId = r.userId) (hx : x ∈ rows)
    (hcount : countHistory rows r.userId < 100)
    (_hfresh : ∀ y ∈ rows, y.ts < r.ts) :
    newerCount (rows ++ [r]) r.userId x.ts < 100 := by
  unfold newerCount
  rw [List.filter_append]
  have hr1 : (([r] : List HistRow).filter
      (fun y => decide (y.userId = r.userId) && decide (x.ts < y.ts))).length ≤ 1 := by
    simp [List.filter_cons]
    split <;> simp
  have h2 : (rows.filter
        (fun y => decide (y.userId = r.userId) && decide (x.ts < y.ts))).length
      < (rows.filter (fun y => decide (y.userId = r.userId))).length := by
    refine length_filter_lt _ _ rows ?_ x hx ?_ ?_
    · intro a ha
      simp only [Bool.and_eq_true] at ha
      exact ha.1
    · simp [hu]
    · simp
  unfold countHistory at hcount
  rw [List.length_append]
  omega

lemma newerCount_append_self (rows : List HistRow) (r : HistRow)
    (hfresh : ∀ y ∈ rows, y.ts < r.ts) :
    newerCount (rows ++ [r]) r.userId r.ts = 0 := by
  unfold newerCount
  rw [List.length_eq_zero]
  apply List.filter_eq_nil_iff.mpr
  intro y hy
  rcases List.mem_append.mp hy with hy' | hy'
  · have := hfresh y hy'
    simp
    intro _
    omega
  · simp at hy'
    subst hy'
    simp

/-- Appending a fresh row while the identity holds fewer than 100 rows evicts
nothing: the retention DELETE keeps every row. -/
lemma insertPrune_below_cap (rows : List HistRow) (r : HistRow)
    (hcount : countHistory rows r.userId < 100)
    (hfresh : ∀ x ∈ rows, x.ts < r.ts) :
    insertPruneHistory rows r = rows ++ [r] := by
  unfold insertPruneHistory pruneUser
  apply List.filter_eq_self.mpr
  intro x hx
  rcases List.mem_append.mp hx with hx' | hx'
  · by_cases hu : x.userId = r.userId
    · have := newerCount_append_mem rows r x hu hx' hcount hfresh
      simp [this]
    · simp [hu]
  · simp only [List.mem_singleton] at hx'
    rw [hx']
    have h0 := newerCount_append_self rows r hfresh
    simp [h0]

/-- On the rows of a single identity listed in strictly increasing timestamp order,
the retention DELETE keeps exactly the trailing 100 rows. -/
lemma pruneUser_sorted (u : ℕ) :
    ∀ rows : List HistRow, (∀ r ∈ rows, r.userId = u) →
      rows.Pairwise (fun a b => a.ts < b.ts) →
      pruneUser rows u = rows.drop (rows.length - 100) := by
  intro rows
  induction rows with
  | nil => intro _ _; rfl
  | cons a l ih =>
    intro hu hp
    rw [List.pairwise_cons] at hp
    obtain ⟨ha, hp'⟩ := hp
    have hul : ∀ r ∈ l, r.userId = u := fun r hr => hu r (List.mem_cons_of_mem a hr)
    have hau : a.userId = u := hu a (List.mem_cons_self a l)
    have hcount_a : newerCount (a :: l) u a.ts = l.length := by
      unfold newerCount
      rw [List.filter_cons]
      have hfl : l.filter (fun r => decide (r.userId = u) && decide (a.ts < r.ts)) = l :=
        List.filter_eq_self.mpr (fun r hr => by simp [hul r hr, ha r hr])
      simp [hfl]
    have hcong : ∀ r ∈ l, newerCount (a :: l) u r.ts = newerCount l u r.ts := by
      intro r hr
      unfold newerCount
      rw [List.filter_cons]
      have : ¬ (r.ts < a.ts) := by
        have := ha r hr
        omega
      simp [this]
    unfold pruneUser
    rw [List.filter_cons]
    have hfilter_congr :
        l.filter (fun r => decide (r.userId ≠ u) ||
            decide (newerCount (a :: l) u r.ts < 100))
          = l.filter (fun r => decide (r.userId ≠ u) ||
              decide (newerCount l u r.ts < 100)) := by
      apply List.filter_congr
      intro r hr
      rw [hcong r hr]
    by_cases hlen : l.length < 100
    · have hpred : (decide (a.userId ≠ u) ||
          decide (newerCount (a :: l) u a.ts < 100)) = true := by
        rw [hcount_a]
        simp [hlen]
      rw [if_pos hpred, hfilter_congr]
      show a :: pruneUser l u = _
      rw [ih hul hp']
      have h1 : l.length - 100 = 0 := by omega
      have h2 : (a :: l).length - 100 = 0 := by
        simp only [List.length_cons]
        omega
      rw [h1, h2]
      simp
    · have hpred : (decide (a.userId ≠ u) ||
          decide (newerCount (a :: l) u a.ts < 100)) = false := by
        rw [hcount_a]
        simp [hau]
        omega
      rw [if_neg (by rw [hpred]; simp), hfilter_congr]
      show pruneUser l u = _
      rw [ih hul hp']
      have h2 : (a :: l).length - 100 = (l.length - 100) + 1 := by
        simp only [List.length_cons]
        omega
      rw [h2]
      rfl

/-- The `user_history` rows of one identity after its first `n` logical
appends, each executed as INSERT + retention DELETE from an initially empty
table; the `i`-th appended row is `rs i`. -/
def historyAfter (rs : ℕ → HistRow) : ℕ → List HistRow
  | 0 => []
  | n + 1 => insertPruneHistory (historyAfter rs n) (rs n)

/-- C7: after any sequence of `n` history appends for one identity (timestamps
strictly increasing, as `CURRENT_TIMESTAMP` across successive handler runs),
the rows that remain are exactly the `min n 100` most recent ones — the
trailing segment of the insertion sequence — so after 105 inserts exactly 100
remain, the oldest 5 having been evicted (bot.py lines 810-818). -/
theorem c7_history_retention (u : ℕ) (rs : ℕ → HistRow)
    (hu : ∀ i, (rs i).userId = u)
    (hmono : ∀ i j, i < j → (rs i).ts < (rs j).ts) (n : ℕ) :
    historyAfter rs n = ((List.range n).map rs).drop (n - 100)
    ∧ (historyAfter rs n).length = min n 100 := by
  have key : ∀ m, historyAfter rs m = ((List.range m).map rs).drop (m - 100) := by
    intro m
    induction m with
    | zero => rfl
    | succ n ih =>
      show insertPruneHistory (historyAfter rs n) (rs n) = _
      rw [ih]
      unfold insertPruneHistory
      rw [hu n]
      have hfull : (List.range (n + 1)).map rs = (List.range n).map rs ++ [rs n] := by
        rw [List.range_succ, List.map_append]
        rfl
      have hdrop_le : n - 100 ≤ ((List.range n).map rs).length := by
        simp only [List.length_map, List.length_range]
        omega
      have happ : ((List.range n).map rs).drop (n - 100) ++ [rs n]
          = ((List.range (n + 1)).map rs).drop (n - 100) := by
        rw [hfull, List.drop_append_of_le_length hdrop_le]
      rw [happ]
      have hmem : ∀ r ∈ ((List.range (n + 1)).map rs).drop (n - 100),
          r.userId = u := by
        intro r hr
        have hr' : r ∈ (List.range (n + 1)).map rs := List.mem_of_mem_drop hr
        rw [List.mem_map] at hr'
        obtain ⟨i, _, rfl⟩ := hr'
        exact hu i
      have hpair : (((List.range (n + 1)).map rs).drop (n - 100)).Pairwise
          (fun a b => a.ts < b.ts) := by
        refine List.Pairwise.sublist (List.drop_sublist _ _) ?_
        rw [List.pairwise_map]
        exact (List.pairwise_lt_range (n + 1)).imp (fun h => hmono _ _ h)
      have hlen : n - 100 + ((((List.range (n + 1)).map rs).drop (n - 100)).length - 100)
          = n + 1 - 100 := by
        simp only [List.length_drop, List.length_map, List.length_range]
        omega
      rw [pruneUser_sorted u _ hmem hpair, List.drop_drop, hlen]
  refine ⟨key n, ?_⟩
  rw [key n]
  simp only [List.length_drop, List.length_map, List.length_range]
  omega

/-- A concrete append sequence: the `i`-th appended row of identity 7 carries
timestamp `i`. -/
def c7Row (i : ℕ) : HistRow :=
  { userId := 7, url := "https://v", selectedQuality := "22",
    mediaType := "video", platform := "youtube", ts := i }

theorem c7_history_retention_witness :
    historyAfter c7Row 105 = ((List.range 105).map c7Row).drop 5
    ∧ (historyAfter c7Row 105).length = min 105 100 :=
  c7_history_retention 7 c7Row (fun _ => rfl) (fun _ _ h => h) 105

/-- One in-flight request entry of `context.bot_data`, created at bot.py
lines 344-350. -/
structure Session where
  url : String
  userId : ℕ
  platform : String
  cancelled : Bool
  deriving DecidableEq, Repr

/-- The mutable bot state the callback handlers touch: the `bot_data` session
table, the `user_history` table, the temporary scratch files of the working
directory, and a clock supplying the strictly increasing `CURRENT_TIMESTAMP`
values of successive statements. -/
structure BotState where
  sessions : List (String × Session)
  history : List HistRow
  tmpFiles : List String
  clock : ℕ
  deriving DecidableEq, Repr

/-- `context.bot_data.get(request_id)` — `request_id in context.bot_data`
lookups throughout handle_callback. -/
def lookupSession (sessions : List (String × Session)) (rid : String) :
    Option Session :=
  match sessions.find? (fun p => p.1 == rid) with
  | some p => some p.2
  | none => none

/-- `del context.bot_data[request_id]`. -/
def removeSession (sessions : List (String × Session)) (rid : String) :
    List (String × Session) :=
  sessions.filter (fun p => !(p.1 == rid))

/-- `context.bot_data[request_id]["cancelled"] = True` (bot.py line 1096). -/
def setCancelled (sessions : List (String × Session)) (rid : String) :
    List (String × Session) :=
  sessions.map (fun p =>
    if p.1 == rid then (p.1, { p.2 with cancelled := true }) else p)

/-- The cancel action, bot.py lines 1093-1100: if the request id is live, set
its cancelled flag, reply "Operation cancelled.", and then DELETE the
session entry from `bot_data`. -/
def handleCancel (st : BotState) (rid : String) : BotState :=
  match lookupSession st.sessions rid with
  | some _ =>
      { st with sessions := removeSession (setCancelled st.sessions rid) rid }
  | none => st

/-- What `ydl.download` left behind: a local artifact of a given byte size, no
output artifact, or a raised exception. -/
inductive DlResult where
  | file (sizeBytes : ℕ)
  | missing
  | err
  deriving DecidableEq, Repr

/-- User-visible terminal outcome of the quality branch of handle_callback
(bot.py lines 791-932). -/
inductive QualityOutcome where
  | sessionExpired
  | videoNotFound
  | cancelled
  | delivered
  | fallbackPrompt
  | errored (uncaughtKeyError : Bool)
  deriving DecidableEq, Repr

/-- The cleanup loop of the error paths (bot.py lines 912-914, 1063-1065):
remove every file whose name starts with `video.`. -/
def removeVideoFiles (files : List String) : List String :=
  files.filter (fun f => !(f.startsWith "video."))

/-- `for file in os.listdir(): if file.startswith("video."):` (lines 848-851). -/
def findVideoFile (files : List String) : Option String :=
  files.find? (fun f => f.startsWith "video.")

/-- The `except` block of the quality branch, bot.py lines 907-932: reply with
an error message, remove all `video.*` files, log the error, and
`del context.bot_data[request_id]` — which itself raises an uncaught
`KeyError` when the session entry is already gone. -/
def exceptCleanup (st : BotState) (rid : String) : QualityOutcome × BotState :=
  let st1 := { st with tmpFiles := removeVideoFiles st.tmpFiles }
  match lookupSession st1.sessions rid with
  | some _ => (.errored false, { st1 with sessions := removeSession st1.sessions rid })
  | none => (.errored true, st1)

/-- The quality branch after its history write, bot.py lines 823-932: run the
download (whose on-disk effect is `video.mp4` when it produces a file), find
the artifact, re-read the session entry at the cancellation checkpoint
(line 861, a raw `context.bot_data[request_id]` access that raises `KeyError`
into the `except` block when the entry is gone), then apply the size policy.
Every branch, including the >50 MB fallback prompt, ends with
`del context.bot_data[request_id]` (lines 864, 903, 930). -/
def qualityResume (dl : DlResult) (st : BotState) (rid : String) :
    QualityOutcome × BotState :=
  match dl with
  | .err => exceptCleanup st rid
  | .missing =>
      match lookupSession st.sessions rid with
      | some _ => (.videoNotFound, { st with sessions := removeSession st.sessions rid })
      | none => exceptCleanup st rid
  | .file n =>
      let st1 := { st with tmpFiles := st.tmpFiles ++ ["video.mp4"] }
      match lookupSession st1.sessions rid with
      | none => exceptCleanup st1 rid
      | some s =>
          if s.cancelled then
            (.cancelled, { st1 with tmpFiles := removeVideoFiles st1.tmpFiles,
                                    sessions := removeSession st1.sessions rid })
          else if mb n ≤ 50 then
            (.delivered, { st1 with tmpFiles := removeVideoFiles st1.tmpFiles,
                                    sessions := removeSession st1.sessions rid })
          else
            (.fallbackPrompt, { st1 with tmpFiles := removeVideoFiles st1.tmpFiles,
                                         sessions := removeSession st1.sessions rid })

/-- The history write at selection time, bot.py lines 802-820: INSERT one
`user_history` row for the selected quality and run the retention DELETE (the
`interactions` UPDATE on line 806 touches no state modelled here). -/
def logQualitySelection (st : BotState) (s : Session) (fid : String) : BotState :=
  { st with
      history := insertPruneHistory st.history
        { userId := s.userId, url := s.url, selectedQuality := fid,
          mediaType := "video", platform := s.platform, ts := st.clock },
      clock := st.clock + 1 }

/-- The whole quality branch of handle_callback, bot.py lines 791-932:
reject an unknown request id with the session-expired reply and no side
effect; otherwise log the selection to history and run the download. -/
def handleQuality (dl : DlResult) (st : BotState) (rid fid : String) :
    QualityOutcome × BotState :=
  match lookupSession st.sessions rid with
  | none => (.sessionExpired, st)
  | some s => qualityResume dl (logQualitySelection st s fid) rid

/-- Outcome of the direct-link branch, bot.py lines 934-971. -/
inductive LinkOutcome where
  | sessionExpired
  | linkSent
  deriving DecidableEq, Repr

/-- The direct-link branch, bot.py lines 934-971: reject an unknown request id
with the session-expired reply and no side effect; otherwise re-extract the
format, reply with its url and delete the session (the re-extraction itself is
not needed by any claim and is abstracted to its reply). -/
def handleLink (st : BotState) (rid : String) : LinkOutcome × BotState :=
  match lookupSession st.sessions rid with
  | none => (.sessionExpired, st)
  | some _ => (.linkSent, { st with sessions := removeSession st.sessions rid })

/-- Outcome of the session gate of the split branch, bot.py lines 973-979. -/
inductive SplitOutcome where
  | sessionExpired
  | splittingStarted
  deriving DecidableEq, Repr

/-- The session gate of the split branch, bot.py lines 973-979: reject an
unknown request id with the session-expired reply and no side effect;
otherwise the split download begins (its chunk plan is `splitChunks`). -/
def handleSplitGate (st : BotState) (rid : String) : SplitOutcome × BotState :=
  match lookupSession st.sessions rid with
  | none => (.sessionExpired, st)
  | some _ => (.splittingStarted, st)

/-- User-visible terminal outcome of the audio branch of handle_callback
(bot.py lines 618-701). -/
inductive AudioOutcome where
  | sessionExpired
  | audioNotFound
  | cancelled
  | delivered
  | tooLargeNotice
  | errored
  deriving DecidableEq, Repr

/-- Cleanup of the audio error path, bot.py lines 697-699. -/
def removeAudioFiles (files : List String) : List String :=
  files.filter (fun f => !(f.startsWith "audio."))

/-- The audio branch of handle_callback, bot.py lines 618-701 (the media
branch has its session gate at 539-543): download; on exception remove `audio.*`
files and delete the session with no history write (692-701); on a missing
artifact delete the session with no history write (644-649); on a cancelled
session remove the artifact and delete the session with no history write
(651-657); otherwise deliver the artifact when within 50 MB or reply with the
too-large notice, remove the artifact, and write exactly one history row
(659-690). -/
def handleAudio (dl : DlResult) (st : BotState) (rid : String) :
    AudioOutcome × BotState :=
  match lookupSession st.sessions rid with
  | none => (.sessionExpired, st)
  | some s =>
    match dl with
    | .err =>
        (.errored, { st with tmpFiles := removeAudioFiles st.tmpFiles,
                             sessions := removeSession st.sessions rid })
    | .missing =>
        (.audioNotFound, { st with sessions := removeSession st.sessions rid })
    | .file n =>
        let st1 := { st with tmpFiles := st.tmpFiles ++ ["audio.mp3"] }
        if s.cancelled then
          (.cancelled, { st1 with tmpFiles := removeAudioFiles st1.tmpFiles,
                                  sessions := removeSession st1.sessions rid })
        else
          let st2 := { st1 with tmpFiles := removeAudioFiles st1.tmpFiles }
          let st3 := { st2 with
            history := insertPruneHistory st2.history
              { userId := s.userId, url := s.url, selectedQuality := "audio",
                mediaType := "audio", platform := s.platform, ts := st2.clock },
            clock := st2.clock + 1 }
          ((if mb n ≤ 50 then .delivered else .tooLargeNotice),
           { st3 with sessions := removeSession st3.sessions rid })

/-- User-visible terminal outcome of the image branch of handle_callback
(bot.py lines 703-789). -/
inductive ImageFlowOutcome where
  | sessionExpired
  | imageNotFound
  | cancelled
  | delivered
  | tooLargeNotice
  | errored
  deriving DecidableEq, Repr

/-- Cleanup of the image error path, bot.py lines 785-787. -/
def removeImageFiles (files : List String) : List String :=
  files.filter (fun f => !(f.startsWith "image."))

/-- The image branch of handle_callback, bot.py lines 703-789 (the media
branch has its session gate at 539-543): download the thumbnail; on exception
remove `image.*` files and delete the session with no history write (780-789);
on a missing artifact delete the session with no history write (730-737); on a
cancelled session remove the artifact and delete the session with no history
write (739-745); otherwise deliver the artifact when within 10 MB or reply
with the too-large notice, remove the artifact, and write exactly one history
row (747-778). -/
def handleImage (dl : DlResult) (st : BotState) (rid : String) :
    ImageFlowOutcome × BotState :=
  match lookupSession st.sessions rid with
  | none => (.sessionExpired, st)
  | some s =>
    match dl with
    | .err =>
        (.errored, { st with tmpFiles := removeImageFiles st.tmpFiles,
                             sessions := removeSession st.sessions rid })
    | .missing =>
        (.imageNotFound, { st with sessions := removeSession st.sessions rid })
    | .file n =>
        let st1 := { st with tmpFiles := st.tmpFiles ++ ["image.jpg"] }
        if s.cancelled then
          (.cancelled, { st1 with tmpFiles := removeImageFiles st1.tmpFiles,
                                  sessions := removeSession st1.sessions rid })
        else
          let st2 := { st1 with tmpFiles := removeImageFiles st1.tmpFiles }
          let st3 := { st2 with
            history := insertPruneHistory st2.history
              { userId := s.userId, url := s.url, selectedQuality := "image",
                mediaType := "image", platform := s.platform, ts := st2.clock },
            clock := st2.clock + 1 }
          ((if mb n ≤ 10 then .delivered else .tooLargeNotice),
           { st3 with sessions := removeSession st3.sessions rid })

/-- What the format-discovery call of the media-video branch returned: a raw
format listing, or a raised extraction error. -/
inductive DiscoveryResult where
  | ok (formats : List RawFormat)
  | err
  deriving DecidableEq, Repr

/-- Outcome of the media-video discovery step, bot.py lines 548-616. -/
inductive DiscoverOutcome where
  | sessionExpired
  | noFormats
  | keyboardShown
  | errored
  deriving DecidableEq, Repr

/-- The format-discovery step of the media-video branch, bot.py lines 548-616
(session gate at 539-543): on an extraction error delete the session with an
error reply and no history write (596-616); when the filter leaves no video
format delete the session with a diagnostic and no history write (569-576);
otherwise present the quality keyboard and keep the session live awaiting
selection, still with no history write (578-594). -/
def handleVideoDiscovery (res : DiscoveryResult) (st : BotState) (rid : String) :
    DiscoverOutcome × BotState :=
  match lookupSession st.sessions rid with
  | none => (.sessionExpired, st)
  | some _ =>
    match res with
    | .err => (.errored, { st with sessions := removeSession st.sessions rid })
    | .ok formats =>
        if (videoFormats formats).isEmpty then
          (.noFormats, { st with sessions := removeSession st.sessions rid })
        else
          (.keyboardShown, st)

/-- Whether the initial `extract_info` of handle_url succeeded. -/
inductive UrlInfoResult where
  | ok
  | err
  deriving DecidableEq, Repr

/-- The per-URL discovery step of handle_url, bot.py lines 344-421: a session
entry is created (344-350); on an extraction error the entry is deleted again
with an error reply and an `errors` row, and no history write (402-421); on
success the media-type keyboard is shown with the session kept live (385-400).
No branch writes `user_history`. -/
def handleUrlDiscovery (res : UrlInfoResult) (st : BotState) (rid : String)
    (s : Session) : BotState :=
  let st1 := { st with sessions := st.sessions ++ [(rid, s)] }
  match res with
  | .ok => st1
  | .err => { st1 with sessions := removeSession st1.sessions rid }

lemma lookupSession_removeSession (ss : List (String × Session)) (rid : String) :
    lookupSession (removeSession ss rid) rid = none := by
  unfold lookupSession removeSession
  have h : (ss.filter (fun p => !(p.1 == rid))).find? (fun p => p.1 == rid)
      = none := by
    rw [List.find?_eq_none]
    intro x hx
    have hp := List.of_mem_filter hx
    simp at hp
    simp [hp]
  rw [h]

lemma lookupSession_handleCancel (st : BotState) (rid : String) :
    lookupSession (handleCancel st rid).sessions rid = none := by
  unfold handleCancel
  cases h : lookupSession st.sessions rid with
  | some s => exact lookupSession_removeSession _ rid
  | none => exact h

lemma findVideoFile_removeVideoFiles (files : List String) :
    findVideoFile (removeVideoFiles files) = none := by
  unfold findVideoFile removeVideoFiles
  rw [List.find?_eq_none]
  intro x hx
  have hp := List.of_mem_filter hx
  simp at hp
  simp [hp]

/-- C1 (refuting the claimed behaviour): once the cancel action has run — at
any point before the post-download cancellation checkpoint — the session entry
is gone (bot.py line 1098 deletes it right after setting the flag), so the
checkpoint, through its raw `context.bot_data[request_id]` access on line 861, raises
`KeyError` into the generic error path: the flow ends with the "Error
downloading video" reply and a second, uncaught `KeyError` from line 930 —
never with terminal status Cancelled.  The cleanup half of the claim does
hold: no `video.*` temporary artifact remains. -/
theorem c1_cancel_before_checkpoint_not_cancelled (st : BotState) (rid : String)
    (dl : DlResult) :
    (qualityResume dl (handleCancel st rid) rid).1 = .errored true
    ∧ findVideoFile (qualityResume dl (handleCancel st rid) rid).2.tmpFiles
        = none := by
  have hnone := lookupSession_handleCancel st rid
  cases dl with
  | err =>
      constructor
      · simp [qualityResume, exceptCleanup, hnone]
      · simp [qualityResume, exceptCleanup, hnone, findVideoFile_removeVideoFiles]
  | missing =>
      constructor
      · simp [qualityResume, exceptCleanup, hnone]
      · simp [qualityResume, exceptCleanup, hnone, findVideoFile_removeVideoFiles]
  | file n =>
      constructor
      · simp [qualityResume, exceptCleanup, hnone]
      · simp [qualityResume, exceptCleanup, hnone, findVideoFile_removeVideoFiles]

/-- C6: a rendition selection referencing a token not present in the session
store is answered with the session-expired reply and performs no further side
effect whatsoever — the entire bot state (session table, history, scratch
files, clock) is returned unchanged (bot.py lines 791-797). -/
theorem c6_expired_token_no_side_effects (dl : DlResult) (st : BotState)
    (rid fid : String) (h : lookupSession st.sessions rid = none) :
    handleQuality dl st rid fid = (.sessionExpired, st) := by
  unfold handleQuality
  rw [h]

def stEmpty : BotState :=
  { sessions := [], history := [], tmpFiles := [], clock := 0 }

theorem c6_expired_token_no_side_effects_witness :
    handleQuality .err stEmpty "tok" "22" = (.sessionExpired, stEmpty) :=
  c6_expired_token_no_side_effects .err stEmpty "tok" "22" (by decide)

/-- C8 (refuting the claimed behaviour): after a fetched video exceeds the
50 MB limit the handler presents the DirectLink/Split prompt but then
unconditionally executes `del context.bot_data[request_id]` (bot.py line 903),
so the session is not live while the choice is pending: pressing either
"Split into Parts" or "Direct Download Link" afterwards is rejected with the
session-expired reply instead of proceeding (bot.py lines 975-979, 936-940). -/
theorem c8_fallback_prompt_deletes_session (st : BotState) (rid fid : String)
    (s : Session) (n : ℕ)
    (hs : lookupSession st.sessions rid = some s)
    (hc : s.cancelled = false)
    (hn : 50 * 1024 * 1024 < n) :
    (handleQuality (.file n) st rid fid).1 = .fallbackPrompt
    ∧ lookupSession (handleQuality (.file n) st rid fid).2.sessions rid = none
    ∧ handleSplitGate (handleQuality (.file n) st rid fid).2 rid
        = (.sessionExpired, (handleQuality (.file n) st rid fid).2)
    ∧ handleLink (handleQuality (.file n) st rid fid).2 rid
        = (.sessionExpired, (handleQuality (.file n) st rid fid).2) := by
  have hgt : ¬ (mb n ≤ 50) := by
    intro hle
    have := (mb_le_iff n 50).mp hle
    omega
  have hq : handleQuality (.file n) st rid fid
      = (.fallbackPrompt,
         { sessions := removeSession st.sessions rid,
           history := insertPruneHistory st.history
             { userId := s.userId, url := s.url, selectedQuality := fid,
               mediaType := "video", platform := s.platform, ts := st.clock },
           tmpFiles := removeVideoFiles (st.tmpFiles ++ ["video.mp4"]),
           clock := st.clock + 1 }) := by
    simp [handleQuality, qualityResume, logQualitySelection, hs, hc, hgt]
  refine ⟨by rw [hq], ?_, ?_, ?_⟩
  · rw [hq]
    exact lookupSession_removeSession _ _
  · rw [hq]
    unfold handleSplitGate
    rw [show lookupSession
        ({ sessions := removeSession st.sessions rid,
           history := insertPruneHistory st.history
             { userId := s.userId, url := s.url, selectedQuality := fid,
               mediaType := "video", platform := s.platform, ts := st.clock },
           tmpFiles := removeVideoFiles (st.tmpFiles ++ ["video.mp4"]),
           clock := st.clock + 1 } : BotState).sessions rid
      = none from lookupSession_removeSession _ _]
  · rw [hq]
    unfold handleLink
    rw [show lookupSession
        ({ sessions := removeSession st.sessions rid,
           history := insertPruneHistory st.history
             { userId := s.userId, url := s.url, selectedQuality := fid,
               mediaType := "video", platform := s.platform, ts := st.clock },
           tmpFiles := removeVideoFiles (st.tmpFiles ++ ["video.mp4"]),
           clock := st.clock + 1 } : BotState).sessions rid
      = none from lookupSession_removeSession _ _]

def demoSession : Session :=
  { url := "https://v", userId := 7, platform := "youtube", cancelled := false }

def demoState : BotState :=
  { sessions := [("tok", demoSession)], history := [], tmpFiles := [], clock := 0 }

theorem c8_fallback_prompt_deletes_session_witness :
    (handleQuality (.file (150 * 1024 * 1024)) demoState "tok" "22").1
        = .fallbackPrompt
    ∧ handleSplitGate
        (handleQuality (.file (150 * 1024 * 1024)) demoState "tok" "22").2 "tok"
      = (.sessionExpired,
         (handleQuality (.file (150 * 1024 * 1024)) demoState "tok" "22").2) :=
  ⟨(c8_fallback_prompt_deletes_session demoState "tok" "22" demoSession
      (150 * 1024 * 1024) (by decide) rfl (by norm_num)).1,
   (c8_fallback_prompt_deletes_session demoState "tok" "22" demoSession
      (150 * 1024 * 1024) (by decide) rfl (by norm_num)).2.2.1⟩

lemma exceptCleanup_history (st : BotState) (rid : String) :
    (exceptCleanup st rid).2.history = st.history := by
  unfold exceptCleanup
  cases h : lookupSession st.sessions rid <;> simp [h]

lemma qualityResume_history (dl : DlResult) (st : BotState) (rid : String) :
    (qualityResume dl st rid).2.history = st.history := by
  cases dl with
  | err => exact exceptCleanup_history st rid
  | missing =>
      unfold qualityResume
      cases h : lookupSession st.sessions rid with
      | none => simp [h, exceptCleanup_history]
      | some s => simp [h]
  | file n =>
      unfold qualityResume
      simp only []
      cases h : lookupSession st.sessions rid with
      | none => simp [h, exceptCleanup_history]
      | some s =>
          simp only [h]
          by_cases hc : s.cancelled <;> by_cases hn : mb n ≤ 50 <;> simp [hc, hn]

lemma countHistory_append_self (rows : List HistRow) (r : HistRow) :
    countHistory (rows ++ [r]) r.userId = countHistory rows r.userId + 1 := by
  unfold countHistory
  rw [List.filter_append, List.length_append]
  simp

/-- C9 counterexample: an audio selection whose download raises ends in the
terminal errored outcome for an attempted user-visible selection, yet the
except path of the handler (bot.py lines 692-701) writes no history row at
all — the history count of the identity does not increase by 1. -/
theorem c9_counterexample_failed_audio_no_append :
    (handleAudio .err demoState "tok").1 = .errored
    ∧ (handleAudio .err demoState "tok").2.history = demoState.history := by
  constructor <;> rfl

/-- C9 amended: a video-quality selection on a live session appends exactly one
history row, at selection time, whatever the download outcome; an audio or
image selection appends exactly one row only when the artifact is delivered or
rejected as too large, and appends nothing when the download raises, the
artifact is missing, or the session was cancelled; discovery failures before
any selection — in handle_url and in the media-video format-discovery step —
append nothing (bot.py lines 802-818, 670-684, 644-657, 692-701, 758-770,
730-745, 780-789, 548-616, 344-421).  Counts are stated below the 100-row
retention cap. -/
theorem c9_amended_history_policy (st : BotState) (rid fid : String)
    (s : Session) (n m : ℕ)
    (hs : lookupSession st.sessions rid = some s)
    (hcount : countHistory st.history s.userId < 100)
    (hfresh : ∀ x ∈ st.history, x.ts < st.clock) :
    (∀ dl, countHistory (handleQuality dl st rid fid).2.history s.userId
        = countHistory st.history s.userId + 1)
    ∧ (s.cancelled = false →
        countHistory (handleAudio (.file n) st rid).2.history s.userId
          = countHistory st.history s.userId + 1)
    ∧ (s.cancelled = true →
        countHistory (handleAudio (.file n) st rid).2.history s.userId
          = countHistory st.history s.userId)
    ∧ countHistory (handleAudio .err st rid).2.history s.userId
        = countHistory st.history s.userId
    ∧ countHistory (handleAudio .missing st rid).2.history s.userId
        = countHistory st.history s.userId
    ∧ (s.cancelled = false →
        countHistory (handleImage (.file m) st rid).2.history s.userId
          = countHistory st.history s.userId + 1)
    ∧ (s.cancelled = true →
        countHistory (handleImage (.file m) st rid).2.history s.userId
          = countHistory st.history s.userId)
    ∧ countHistory (handleImage .err st rid).2.history s.userId
        = countHistory st.history s.userId
    ∧ countHistory (handleImage .missing st rid).2.history s.userId
        = countHistory st.history s.userId
    ∧ (∀ res st2, (handleVideoDiscovery res st2 rid).2.history = st2.history)
    ∧ (∀ res st2 s2, (handleUrlDiscovery res st2 rid s2).history
        = st2.history) := by
  refine ⟨?_, ?_, ?_, ?_, ?_, ?_, ?_, ?_, ?_, ?_, ?_⟩
  · intro dl
    unfold handleQuality
    rw [hs]
    show countHistory
        (qualityResume dl (logQualitySelection st s fid) rid).2.history s.userId = _
    rw [qualityResume_history]
    show countHistory (insertPruneHistory st.history
        { userId := s.userId, url := s.url, selectedQuality := fid,
          mediaType := "video", platform := s.platform, ts := st.clock })
        s.userId = _
    rw [insertPrune_below_cap _ _ hcount hfresh]
    exact countHistory_append_self st.history _
  · intro hc
    unfold handleAudio
    rw [hs]
    simp only []
    rw [hc]
    show countHistory (insertPruneHistory st.history
        { userId := s.userId, url := s.url, selectedQuality := "audio",
          mediaType := "audio", platform := s.platform, ts := st.clock })
        s.userId = _
    rw [insertPrune_below_cap _ _ hcount hfresh]
    exact countHistory_append_self st.history _
  · intro hc
    unfold handleAudio
    rw [hs]
    simp only []
    rw [hc]
    rfl
  · unfold handleAudio
    rw [hs]
  · unfold handleAudio
    rw [hs]
  · intro hc
    unfold handleImage
    rw [hs]
    simp only []
    rw [hc]
    show countHistory (insertPruneHistory st.history
        { userId := s.userId, url := s.url, selectedQuality := "image",
          mediaType := "image", platform := s.platform, ts := st.clock })
        s.userId = _
    rw [insertPrune_below_cap _ _ hcount hfresh]
    exact countHistory_append_self st.history _
  · intro hc
    unfold handleImage
    rw [hs]
    simp only []
    rw [hc]
    rfl
  · unfold handleImage
    rw [hs]
  · unfold handleImage
    rw [hs]
  · intro res st2
    unfold handleVideoDiscovery
    cases h : lookupSession st2.sessions rid with
    | none => rfl
    | some s2 =>
        cases res with
        | err => rfl
        | ok formats =>
            by_cases he : (videoFormats formats).isEmpty <;> simp [he]
  · intro res st2 s2
    cases res <;> rfl

theorem c9_amended_history_policy_witness :
    countHistory (handleQuality .err demoState "tok" "22").2.history
        demoSession.userId
      = countHistory demoState.history demoSession.userId + 1
    ∧ countHistory (handleAudio .err demoState "tok").2.history
        demoSession.userId
      = countHistory demoState.history demoSession.userId
    ∧ countHistory (handleImage .err demoState "tok").2.history
        demoSession.userId
      = countHistory demoState.history demoSession.userId :=
  ⟨(c9_amended_history_policy demoState "tok" "22" demoSession 0 0 (by decide)
      (by decide) (by decide)).1 .err,
   (c9_amended_history_policy demoState "tok" "22" demoSession 0 0 (by decide)
      (by decide) (by decide)).2.2.2.1,
   (c9_amended_history_policy demoState "tok" "22" demoSession 0 0 (by decide)
      (by decide) (by decide)).2.2.2.2.2.2.2.1⟩
